import Mathlib

/-!
Verification of the command dispatch engine of the `simple-discordjs`
library (file `src/commands.ts` and the authorization middleware
`src/middleware/auth.ts`), via a shallow embedding in Lean.

The embedding models JS strings with Lean `String`, JS objects used as
string maps with functions `String → Option Nat`, the ES6 `Symbol`
identity tokens with a monotonically increasing `Nat` counter (the
design notes of the project suggest exactly this reimplementation), and
thrown `CommandError` exceptions with an explicit error type threaded
through `Except` / `Option`.  Handlers are identified by a numeric id
and the dispatcher records which handler ids were started, how many
middleware predicates were invoked, and which chat notices were sent,
so that the observable behaviour of a dispatch is a plain value.
-/

namespace SimpleDiscord

/-! ## JS string primitives

Small executable models of the JavaScript string operations used by the
engine: `toLowerCase`, `toUpperCase`, `startsWith`, `endsWith`,
`trim`, `split(/\s/)` (which, like in JS, keeps empty fragments for
consecutive separators) and `join`.  All are structural recursions over
the character list so that concrete runs reduce inside the kernel. -/

def strOfChars (cs : List Char) : String := ⟨cs⟩

def jsToLower (s : String) : String := strOfChars (s.data.map Char.toLower)

def jsToUpper (s : String) : String := strOfChars (s.data.map Char.toUpper)

def jsStartsWith (pre s : String) : Bool := pre.data.isPrefixOf s.data

def jsEndsWith (post s : String) : Bool := post.data.reverse.isPrefixOf s.data.reverse

def jsSplitAux (p : Char → Bool) : List Char → List Char → List String
  | [], acc => [strOfChars acc.reverse]
  | c :: cs, acc =>
    if p c then strOfChars acc.reverse :: jsSplitAux p cs []
    else jsSplitAux p cs (c :: acc)

/-- JS `s.split(re)` for a single-character class `re`: every matching
character separates two fragments, so consecutive matches produce empty
fragments and the empty string splits to `[""]`. -/
def jsSplit (p : Char → Bool) (s : String) : List String := jsSplitAux p s.data []

def jsTrim (s : String) : String :=
  strOfChars (((s.data.dropWhile Char.isWhitespace).reverse.dropWhile Char.isWhitespace).reverse)

def jsJoin (sep : String) : List String → String
  | [] => ""
  | [x] => x
  | x :: xs => x ++ sep ++ jsJoin sep xs

def jsDropChars (n : Nat) (s : String) : String := strOfChars (s.data.drop n)

def jsDropRightChars (n : Nat) (s : String) : String := strOfChars ((s.data.reverse.drop n).reverse)

/-! ## Error and notice taxonomy

`commands.ts` throws a single `CommandError` class with a message
string; the five throw sites correspond to the five expected failure
conditions of the spec.  Chat notices sent with `channel.send` are
modelled by an enumeration naming the send site. -/

inductive CommandError where
  /-- parseRequest: `Message is malformed, not a correct command request.` -/
  | malformedRequest
  /-- getCommand: `Command is not valid.` (empty candidate list) -/
  | unknownCommand
  /-- checkPrefix: `Function requires a prefix.` -/
  | pfxRequired
  /-- createParameters: `The parameters are not correct.` -/
  | parameterMismatch
  /-- checkMiddleware: `Middlware Rejection!` -/
  | middlewareRejected
deriving DecidableEq, Repr

inductive Notice where
  /-- `Command not found! Consider sending {prefix}help.` -/
  | commandNotFound
  /-- `Please format your ... to match ...` (createParameters catch branch) -/
  | paramFormat
  /-- auth.authenticate: `You are not allowed to use this command.` -/
  | notAllowed
  /-- auth.addRoleCommand: `{role} was not found as a role.` -/
  | roleNotOneOf
  /-- auth.addRoleCommand: `There was an issue adding the roles.` -/
  | roleIssue
  /-- auth.setRole: `You did not specify any roles to add.` -/
  | noRolesSpecified
  /-- auth.setRole: `Role {type} was not found. Check .h for the role names.` -/
  | roleNameNotFound
  /-- auth.setRole: `Roles have been added to the command permissions!` -/
  | rolesAdded
deriving DecidableEq, Repr

/-! ## Data model (interfaces of `commands.ts`)

`CommandFunction` handlers and `RegExp` patterns are modelled
abstractly: a handler is a numeric id recorded by the dispatcher when
the handler is started, and a pattern is its test function
`String → Bool` on the full message content. -/

structure Msg where
  content : String
  authorId : String
deriving DecidableEq, Repr

/-- Interface `CommandAction` of commands.ts.  The source field
`noPrefix` is spelled `noPfx` here; absent optional fields of the JS
interface are the defaults. -/
structure CommandAction where
  action : Nat
  names : List String
  noPfx : Bool := false
  parameters : Option String := none
  pattern : Option (String → Bool) := none

/-- Interface `CommandDefinition`.  `authentication : 0` is the absent /
`RoleTypes.ALL` case, which is falsy in the JS checks.  The help-only
`description` field is out of scope and omitted. -/
structure CommandDefinition where
  command : CommandAction
  authentication : Nat := 0

/-- Interface `CommandObject`: a registered command, its minted identity
token (`Symbol` in the source, a counter value here), its alias list and
the derived is-pattern flag. -/
structure CommandObject where
  definition : CommandDefinition
  symbol : Nat
  aliases : List String
  pattern : Bool := false

/-- `MiddlewareFunction`: an async predicate of the message and the
matched definition (the client handle carries no information for the
model).  The Bool is the resolved value of the promise. -/
def Middleware : Type := Msg → CommandDefinition → Bool

/-- Interface `ParameterDefinition`: the raw ordered argument list and
the optional named-capture mapping produced by the reverse template. -/
structure ParameterDefinition where
  array : List String
  named : Option (List (String × String)) := none
deriving DecidableEq, Repr

/-- The private state of a `Commands` instance: the prefix literal, the
client user id (for the self-message gate), the alias map `commands`,
the insertion-ordered pattern collection `patterns`, the function cache
`funcs` and the middleware list.  `nextSymbol` mints identity tokens. -/
structure CommandsState where
  prefixStr : String
  clientUserId : String
  commands : String → Option Nat
  patterns : List ((String → Bool) × Nat)
  funcs : Nat → Option CommandObject
  middlewares : List Middleware
  nextSymbol : Nat

/-- The `Commands` constructor: empty registry, empty middleware list. -/
def mkCommands (prefixStr clientUserId : String) : CommandsState :=
  { prefixStr := prefixStr
    clientUserId := clientUserId
    commands := fun _ => none
    patterns := []
    funcs := fun _ => none
    middlewares := []
    nextSymbol := 0 }

/-! ## Registration (`use`, `defineCommand`, `patternCommand`) -/

/-- `Commands.use`: appends the middleware to the ordered list. -/
def use (st : CommandsState) (middleware : Middleware) : CommandsState :=
  { st with middlewares := st.middlewares ++ [middleware] }

/-- The alias-binding loop of `defineCommand`:
`for (alias of names) commands[alias.toLowerCase()] = reference`. -/
def bindAliases (reference : Nat) : List String → (String → Option Nat) → (String → Option Nat)
  | [], m => m
  | a :: rest, m => bindAliases reference rest (fun k => if k = jsToLower a then some reference else m k)

/-- `Commands.patternCommand` (private): store the command object under a
fresh token and append the (pattern, token) pair to the collection. -/
def patternCommand (st : CommandsState) (regex : String → Bool) (d : CommandDefinition) : CommandsState :=
  { st with
    funcs := fun s =>
      if s = st.nextSymbol then
        some { definition := d, symbol := st.nextSymbol, aliases := d.command.names, pattern := true }
      else st.funcs s
    patterns := st.patterns ++ [(regex, st.nextSymbol)]
    nextSymbol := st.nextSymbol + 1 }

/-- `Commands.defineCommand`: a definition carrying a pattern goes to
`patternCommand`; otherwise mint a token, store the command object and
bind every alias, lower-cased, to the token (silently overwriting). -/
def defineCommand (st : CommandsState) (d : CommandDefinition) : CommandsState :=
  match d.command.pattern with
  | some p => patternCommand st p d
  | none =>
    { st with
      funcs := fun s =>
        if s = st.nextSymbol then
          some { definition := d, symbol := st.nextSymbol, aliases := d.command.names, pattern := false }
        else st.funcs s
      commands := bindAliases st.nextSymbol d.command.names st.commands
      nextSymbol := st.nextSymbol + 1 }

/-! ## Tokenizer (`parseRequest`)

The regex `(escapedLiteralPrefix)?(.+)` is executed against the first
whitespace-delimited token: the optional group captures the prefix
exactly when the token starts with the prefix literal and at least one
character remains for the mandatory `(.+)` group; with an empty first
token the regex fails and the request is malformed. -/

def parseRequest (prefixStr : String) (content : String) :
    Except CommandError (Option String × String × List String) :=
  match jsSplit Char.isWhitespace (jsTrim content) with
  | [] => .error .malformedRequest
  | fullCommand :: parameters =>
    if fullCommand = "" then .error .malformedRequest
    else if jsStartsWith prefixStr fullCommand && !(decide (fullCommand = prefixStr)) then
      .ok (some prefixStr, jsDropChars prefixStr.data.length fullCommand, parameters)
    else
      .ok (none, fullCommand, parameters)

/-! ## Command resolution (`getCommand`, `checkPatterns`) -/

/-- `Commands.checkPatterns`: walk the pattern collection in
registration order and push the command object of every pattern that
tests true on the raw message content. -/
def checkPatterns (funcs : Nat → Option CommandObject) (content : String) :
    List ((String → Bool) × Nat) → List CommandObject → List CommandObject
  | [], commands => commands
  | ps :: rest, commands =>
    if ps.1 content then
      match funcs ps.2 with
      | some c => checkPatterns funcs content rest (commands ++ [c])
      | none => checkPatterns funcs content rest commands
    else checkPatterns funcs content rest commands

/-- The alias part of resolution: look the chat command up, lower-cased,
in the alias map, then the token in the function cache. -/
def aliasCandidates (st : CommandsState) (chatCommand : String) : List CommandObject :=
  match (st.commands (jsToLower chatCommand)).bind st.funcs with
  | some c => [c]
  | none => []

/-- The pattern part of resolution, in registration order. -/
def patternCandidates (st : CommandsState) (content : String) : List CommandObject :=
  st.patterns.filterMap (fun ps => if ps.1 content then st.funcs ps.2 else none)

/-- `Commands.getCommand`: alias candidate first, then every matching
pattern.  On an empty candidate list the not-found notice is sent only
when the chat prefix equals the configured prefix literal and the
message does not start with the doubled prefix, and `UnknownCommand` is
thrown. -/
def getCommand (st : CommandsState) (chatCommand : String) (chatPfx : Option String)
    (content : String) : Except CommandError (List CommandObject) × List Notice :=
  let commands := checkPatterns st.funcs content st.patterns (aliasCandidates st chatCommand)
  if commands.length = 0 then
    (.error .unknownCommand,
      if decide (chatPfx = some st.prefixStr)
          && !(jsStartsWith (st.prefixStr ++ st.prefixStr) content) then
        [.commandNotFound]
      else [])
  else
    (.ok commands, [])

/-! ## Reverse template (`createParameters` and the reverse-mustache engine) -/

/-- Recognize a `\x7b\x7bname\x7d\x7d` placeholder token and return the
placeholder name. -/
def placeholderName (t : String) : Option String :=
  if jsStartsWith "\x7b\x7b" t && jsEndsWith "\x7d\x7d" t && decide (4 < t.data.length) then
    some (jsDropRightChars 2 (jsDropChars 2 t))
  else none

/-- Match template tokens against content tokens one to one: a
placeholder token binds its name to the content token, a literal token
must equal the content token, and leftover tokens on either side are a
mismatch. -/
def matchTokens : List String → List String → Option (List (String × String))
  | [], [] => some []
  | t :: ts, c :: cs =>
    (match placeholderName t with
      | some n => (matchTokens ts cs).map (fun m => (n, c) :: m)
      | none => if t = c then matchTokens ts cs else none)
  | _, _ => none

/-- Modelled from the spec: the reverse-template engine is the external
`reverse-mustache` npm dependency, whose code is not part of this
repository.  Per the spec, literal template text forms mandatory
separators, each placeholder captures the argument text between them,
and the space-delimited argument tokens must exactly cover the template
— extra or missing tokens are a mismatch, with no ignore-trailing
mode.  Failure is `none` (the library throw that `createParameters`
catches). -/
def reverseMustache (template content : String) : Option (List (String × String)) :=
  matchTokens (jsSplit (fun c => c = ' ') template) (jsSplit (fun c => c = ' ') content)

/-- `Commands.createParameters`: without a template the named mapping is
absent; with a template the argument tokens are rejoined with single
spaces and reverse-matched, and on mismatch a format notice is sent and
`ParameterMismatch` is thrown. -/
def createParameters (parameterArray : List String) (d : CommandDefinition) :
    Except CommandError ParameterDefinition × List Notice :=
  match d.command.parameters with
  | none => (.ok { array := parameterArray, named := none }, [])
  | some template =>
    match reverseMustache template (jsJoin " " parameterArray) with
    | some named => (.ok { array := parameterArray, named := some named }, [])
    | none => (.error .parameterMismatch, [.paramFormat])

/-! ## Middleware pipeline (`checkMiddleware`)

The source wraps an async loop in `new Promise((resolve, reject) => ...)`:
every middleware is awaited in registration order; a falsy result calls
`reject(new CommandError(...))` — which settles the promise but, with no
`return` or `break`, does not leave the loop, so the remaining
middlewares are still invoked; later `reject`/`resolve` calls on the
settled promise are no-ops.  The model returns the settled outcome
together with the number of middlewares invoked. -/

def checkMiddlewareLoop (msg : Msg) (d : CommandDefinition) :
    List Middleware → Option CommandError → Option CommandError × Nat
  | [], settled => (settled, 0)
  | ware :: rest, settled =>
    let result := ware msg d
    let settled₁ :=
      if result then settled
      else
        match settled with
        | some e => some e
        | none => some .middlewareRejected
    let r := checkMiddlewareLoop msg d rest settled₁
    (r.1, r.2 + 1)

/-- `Commands.checkMiddleware`: the promise resolves `true` only when no
middleware returned falsy; the second component counts the middleware
invocations that actually happened. -/
def checkMiddleware (wares : List Middleware) (msg : Msg) (d : CommandDefinition) :
    Except CommandError Bool × Nat :=
  match checkMiddlewareLoop msg d wares none with
  | (some e, n) => (.error e, n)
  | (none, n) => (.ok true, n)

/-! ## Dispatcher (`message` and its candidate loop) -/

/-- `Commands.checkPrefix`: a candidate with no chat prefix present
fails unless the definition is noPrefix or the command is a pattern
command. -/
def checkPfx (chatPfx : Option String) (c : CommandObject) : Except CommandError Unit :=
  let falsy := match chatPfx with
    | none => true
    | some s => s = ""
  if falsy && !c.definition.command.noPfx && !c.pattern then
    .error .pfxRequired
  else
    .ok ()

/-- Observable outcome of one dispatch: notices sent, number of
middlewares invoked for each candidate that reached the middleware
stage, and the handler ids started, all in order. -/
structure DispatchLog where
  notices : List Notice := []
  middlewareInvocations : List Nat := []
  handlers : List Nat := []
deriving DecidableEq, Repr

/-- The `for (commandObject of commands)` body of `Commands.message`:
prefix check, parameter extraction, middleware, then the handler is
started (fire and continue).  The first thrown `CommandError` leaves
the loop — the `try` block wraps the whole loop — so the remaining
candidates are not processed. -/
def runCandidates (st : CommandsState) (msg : Msg) (chatPfx : Option String)
    (parameterArray : List String) : List CommandObject → Option CommandError × DispatchLog
  | [] => (none, {})
  | c :: rest =>
    match checkPfx chatPfx c with
    | .error e => (some e, {})
    | .ok _ =>
      match createParameters parameterArray c.definition with
      | (.error e, ns) => (some e, { notices := ns })
      | (.ok _params, ns) =>
        match checkMiddleware st.middlewares msg c.definition with
        | (.error e, n) => (some e, { notices := ns, middlewareInvocations := [n] })
        | (.ok _, n) =>
          let r := runCandidates st msg chatPfx parameterArray rest
          (r.1,
            { notices := ns ++ r.2.notices
              middlewareInvocations := n :: r.2.middlewareInvocations
              handlers := c.definition.command.action :: r.2.handlers })

/-- The `try` block of `Commands.message`: tokenize, resolve, loop over
the candidates. -/
def messageTry (st : CommandsState) (msg : Msg) : Option CommandError × DispatchLog :=
  match parseRequest st.prefixStr msg.content with
  | .error e => (some e, {})
  | .ok (chatPfx, chatCommand, parameterArray) =>
    match getCommand st chatCommand chatPfx msg.content with
    | (.error e, ns) => (some e, { notices := ns })
    | (.ok cands, ns) =>
      let r := runCandidates st msg chatPfx parameterArray cands
      (r.1, { r.2 with notices := ns ++ r.2.notices })

/-- The `catch` clause: a `CommandError` is swallowed (`return`); in
this model every thrown error is a `CommandError`, so nothing is ever
re-thrown to the embedding application. -/
def swallowCommandError : Option CommandError × DispatchLog → Option CommandError × DispatchLog
  | (some _, log) => (none, log)
  | (none, log) => (none, log)

/-- `Commands.message`: ignore self-messages, run the try block, swallow
`CommandError`.  The first component is the error propagated to the
embedding application, the second the observable dispatch log. -/
def message (st : CommandsState) (msg : Msg) : Option CommandError × DispatchLog :=
  if msg.authorId = st.clientUserId then (none, {})
  else swallowCommandError (messageTry st msg)

/-! ## Authorization middleware (`middleware/auth.ts`)

`RoleTypes`: ALL = 0 < MOD = 1 < ADMIN = 2 < OWNER = 3 < SUPERUSER = 4.
The transport-provided facts about the invoking identity (superuser
configuration, guild ownership, guild role memberships) and the
persisted role records of the guild are packaged in a context record;
the external role-store query of `authenticate` is evaluated against
the `guildRoleRecords` rows exactly as the query builder states it:
rows of this guild with `type <= authentication` whose id is among the
user role memberships, counted. -/

structure AuthContext where
  superuser : String
  authorId : String
  guildOwnerId : String
  userRoleIds : List String
  guildRoleRecords : List (String × Nat)
deriving DecidableEq, Repr

/-- Result of `Auth.authenticate`: the truthiness of the resolved value,
whether the external role store was consulted, and the notices sent. -/
structure AuthOutcome where
  ok : Bool
  storeQueried : Bool
  notices : List Notice
deriving DecidableEq, Repr

/-- `Auth.getHighestRole`: SUPERUSER for the configured superuser
identity, OWNER for the guild owner, otherwise ALL. -/
def getHighestRole (ctx : AuthContext) : Nat :=
  if ctx.authorId = ctx.superuser then 4
  else if ctx.authorId = ctx.guildOwnerId then 3
  else 0

/-- `Auth.authenticate`: no (or falsy ALL) requirement succeeds; a fast
role at least the requirement succeeds without a lookup (the source
returns the numeric `fastCheck`, truthy in that branch); otherwise the
role store is queried for guild records with `type <= authentication`
among the user role ids, a positive count succeeds, and otherwise a
denial notice is sent and the middleware resolves falsy. -/
def authenticate (ctx : AuthContext) (authentication : Nat) : AuthOutcome :=
  if authentication = 0 then ⟨true, false, []⟩
  else if authentication ≤ getHighestRole ctx then ⟨true, false, []⟩
  else
    let roleRecords :=
      (ctx.guildRoleRecords.filter
        (fun r => decide (r.2 ≤ authentication) && ctx.userRoleIds.contains r.1)).length
    if 0 < roleRecords then ⟨true, true, []⟩
    else ⟨false, true, [.notAllowed]⟩

/-- The highest authorization level actually granted to the identity:
the fast level joined with the levels of the persisted guild role
records the identity is a member of.  This is the level `A` the spec
compares against the requirement. -/
def highestGrantedLevel (ctx : AuthContext) : Nat :=
  ((ctx.guildRoleRecords.filter (fun r => ctx.userRoleIds.contains r.1)).map Prod.snd).foldl
    max (getHighestRole ctx)

/-! ## Role assignment command (`Auth.addRoleCommand`, `Auth.setRole`)

The database side of `setRole` (find-or-create guild, persist each
mentioned role) has no failure branch in the source — `persist` is
fire-and-forget — so after the two validations the command reports
success.  The mentioned roles of the message are passed explicitly. -/

/-- The reflective `(RoleTypes as any)[key]` lookup on the enum. -/
def roleTypesLookup (key : String) : Option Nat :=
  if key = "ALL" then some 0
  else if key = "MOD" then some 1
  else if key = "ADMIN" then some 2
  else if key = "OWNER" then some 3
  else if key = "SUPERUSER" then some 4
  else none

/-- `Auth.setRole`: no mentioned roles is a notice and false; an enum
lookup that is undefined or falsy ALL is a notice and false; otherwise
every mentioned role is persisted with the level and the success notice
is sent. -/
def setRole (mentionedRoles : List String) (ty : String) : Bool × List Notice :=
  if mentionedRoles.length = 0 then (false, [.noRolesSpecified])
  else
    match roleTypesLookup (jsToUpper ty) with
    | none => (false, [.roleNameNotFound])
    | some 0 => (false, [.roleNameNotFound])
    | some _ => (true, [.rolesAdded])

/-- `Auth.addRoleCommand`: the extracted `type` parameter is
lower-cased; outside the closed set mod / admin the command resolves
false with a notice; otherwise `setRole` runs and a falsy result only
adds a notice — the command still resolves true. -/
def addRoleCommand (typeParam : String) (mentionedRoles : List String) : Bool × List Notice :=
  let role := jsToLower typeParam
  if role = "mod" ∨ role = "admin" then
    let sr := setRole mentionedRoles role
    if sr.1 then (true, sr.2) else (true, sr.2 ++ [.roleIssue])
  else (false, [.roleNotOneOf])

/-! ## Concrete fixtures

Small concrete registries and messages used to evaluate the engine at
explicit inputs. -/

/-- A plain alias command `go` whose handler has id 7. -/
def goDefinition : CommandDefinition := { command := { action := 7, names := ["go"] } }

/-- Registry with the `go` command and three middlewares: pass, fail,
pass — the configuration of the middleware short-circuit test. -/
def mwState : CommandsState :=
  use (use (use (defineCommand (mkCommands "!" "bot") goDefinition)
    (fun _ _ => true)) (fun _ _ => false)) (fun _ _ => true)

def mwMsg : Msg := { content := "!go", authorId := "user" }

/-- First candidate of the two-candidate dispatch: alias command with
handler id 1. -/
def twoCandDef₁ : CommandDefinition := { command := { action := 1, names := ["go"] } }

/-- Second candidate: a pattern command with handler id 2, matching any
message that starts with `!go`. -/
def twoCandDef₂ : CommandDefinition :=
  { command := { action := 2, names := ["pat"], pattern := some (fun s => jsStartsWith "!go" s) } }

/-- Registry with both candidates and one middleware that rejects only
the definition with handler id 1. -/
def twoCandState : CommandsState :=
  use (defineCommand (defineCommand (mkCommands "!" "bot") twoCandDef₁) twoCandDef₂)
    (fun _ d => !(decide (d.command.action = 1)))

def twoCandMsg : Msg := { content := "!go", authorId := "user" }

/-- The registered command object of the first candidate. -/
def twoCandObj₁ : CommandObject :=
  { definition := twoCandDef₁, symbol := 0, aliases := ["go"], pattern := false }

/-- The registered command object of the second candidate. -/
def twoCandObj₂ : CommandObject :=
  { definition := twoCandDef₂, symbol := 1, aliases := ["pat"], pattern := true }

/-- The template of the parameter-extraction test, `«a» «b»` with
mustache braces. -/
def abTemplate : String := "\x7b\x7ba\x7d\x7d \x7b\x7bb\x7d\x7d"

/-- A command definition carrying the two-placeholder template. -/
def abDefinition : CommandDefinition :=
  { command := { action := 3, names := ["t"], parameters := some abTemplate } }

/-- Alias command for the three-candidate resolution test. -/
def triDef₁ : CommandDefinition := { command := { action := 10, names := ["ping"] } }

/-- First pattern command of the three-candidate test. -/
def triDef₂ : CommandDefinition :=
  { command := { action := 11, names := ["pat1"], pattern := some (fun s => jsStartsWith "!p" s) } }

/-- Second pattern command of the three-candidate test. -/
def triDef₃ : CommandDefinition :=
  { command := { action := 12, names := ["pat2"], pattern := some (fun s => decide (s = "!ping")) } }

def triState : CommandsState :=
  defineCommand (defineCommand (defineCommand (mkCommands "!" "bot") triDef₁) triDef₂) triDef₃

def triObj₁ : CommandObject :=
  { definition := triDef₁, symbol := 0, aliases := ["ping"], pattern := false }

def triObj₂ : CommandObject :=
  { definition := triDef₂, symbol := 1, aliases := ["pat1"], pattern := true }

def triObj₃ : CommandObject :=
  { definition := triDef₃, symbol := 2, aliases := ["pat2"], pattern := true }

/-- Older definition bound to the alias `ping` (handler id 20). -/
def pingDefOld : CommandDefinition := { command := { action := 20, names := ["ping"] } }

/-- Newer definition bound to the same alias `ping` (handler id 21). -/
def pingDefNew : CommandDefinition := { command := { action := 21, names := ["ping"] } }

/-- Definition registered under the mixed-case alias `Ping`. -/
def pingDefCased : CommandDefinition := { command := { action := 22, names := ["Ping"] } }

/-- The empty registry with prefix `!`. -/
def emptyState : CommandsState := mkCommands "!" "bot"

/-- Authorization context of the escalation test: an identity that is
neither superuser nor owner, whose only membership is a persisted
MOD-level (1) role. -/
def modOnlyCtx : AuthContext :=
  { superuser := "su", authorId := "user1", guildOwnerId := "owner1"
    userRoleIds := ["r1"], guildRoleRecords := [("r1", 1)] }

/-- Authorization context whose identity is the configured superuser. -/
def superuserCtx : AuthContext :=
  { superuser := "su", authorId := "su", guildOwnerId := "owner1"
    userRoleIds := [], guildRoleRecords := [] }

/-! ## Helper lemmas -/

/-- The catch clause never lets an error out: in this model every
thrown error is a `CommandError` and is swallowed. -/
theorem message_first_none (st : CommandsState) (m : Msg) : (message st m).1 = none := by
  unfold message
  by_cases hself : m.authorId = st.clientUserId
  · simp [hself]
  · simp only [hself, if_false]
    cases hmt : messageTry st m with
    | mk o log => cases o <;> simp [swallowCommandError]

/-- The pattern loop appends, to the incoming candidate list, exactly
the commands of the matching patterns in registration order. -/
theorem checkPatterns_eq (funcs : Nat → Option CommandObject) (content : String) :
    ∀ (pats : List ((String → Bool) × Nat)) (init : List CommandObject),
    checkPatterns funcs content pats init =
      init ++ pats.filterMap (fun ps => if ps.1 content then funcs ps.2 else none) := by
  intro pats
  induction pats with
  | nil => intro init; simp [checkPatterns]
  | cons ps rest ih =>
    intro init
    by_cases hm : ps.1 content
    · cases hf : funcs ps.2 with
      | some c => simp [checkPatterns, hm, hf, ih]
      | none => simp [checkPatterns, hm, hf, ih]
    · simp [checkPatterns, hm, ih]

/-- Looking a key up after the alias-binding loop: the freshly minted
reference exactly when some alias lower-cases to the key, the previous
binding otherwise. -/
theorem bindAliases_lookup (reference : Nat) :
    ∀ (names : List String) (m : String → Option Nat) (k : String),
    bindAliases reference names m k =
      if names.any (fun a => decide (k = jsToLower a)) then some reference else m k := by
  intro names
  induction names with
  | nil => intro m k; simp [bindAliases]
  | cons a rest ih =>
    intro m k
    simp only [bindAliases, ih, List.any_cons]
    by_cases hk : k = jsToLower a
    · by_cases hr : rest.any (fun b => decide (k = jsToLower b)) = true <;> simp [hk, hr]
    · by_cases hr : rest.any (fun b => decide (k = jsToLower b)) = true <;> simp [hk, hr]

/-- An alias list containing `s` makes the binding-loop test fire for
every key that lower-cases like `s`. -/
theorem any_toLower_of_mem {s k : String} {names : List String} (hs : s ∈ names)
    (hk : k = jsToLower s) : names.any (fun a => decide (k = jsToLower a)) = true := by
  refine List.any_eq_true.mpr ⟨s, hs, ?_⟩
  simp [hk]

/-! ## Claim theorems -/

/-- C1: the spec claims that the first falsy middleware aborts the
pipeline so that no later predicate is ever invoked and the handler
never runs.  On the code, with predicates pass, fail, pass, the
dispatch does fail with the middleware rejection and the handler is
never started, but all three predicates are invoked: the `reject` call
in `checkMiddleware` settles the promise without leaving the loop.
This theorem evaluates the engine at that failing input. -/
theorem middleware_rejection_runs_later_predicates :
    mwState.middlewares.length = 3 ∧
    checkMiddleware mwState.middlewares mwMsg goDefinition =
      (.error .middlewareRejected, 3) ∧
    message mwState mwMsg =
      (none, { notices := [], middlewareInvocations := [3], handlers := [] }) := by
  refine ⟨rfl, rfl, rfl⟩

/-- C2 (counterexample): the message `!go` resolves to two candidates,
the alias command and a pattern command, and the single middleware
rejects only the first of them; the claim says the second, already
resolved candidate is still processed, but the dispatch stops at the
first `CommandError` — no handler runs at all and only one candidate
reaches the middleware stage — even though running the second candidate
alone would invoke its handler. -/
theorem candidate_failure_skips_remaining_candidates :
    (getCommand twoCandState "go" (some "!") "!go").1 = .ok [twoCandObj₁, twoCandObj₂] ∧
    message twoCandState twoCandMsg =
      (none, { notices := [], middlewareInvocations := [1], handlers := [] }) ∧
    (runCandidates twoCandState twoCandMsg (some "!") [] [twoCandObj₂]).2.handlers = [2] := by
  refine ⟨rfl, rfl, rfl⟩

/-- C2 (amended): an expected failure of one candidate ends the whole
candidate loop — the dispatch of the failing candidate and of every
remaining candidate is abandoned, the run is exactly the run of the
failing candidate alone, no handler of the tail is started — and the
condition is still not propagated as an error to the embedding
application. -/
theorem candidate_failure_aborts_quietly (st : CommandsState) (msg : Msg)
    (chatPfx : Option String) (args : List String) (c : CommandObject)
    (rest : List CommandObject) (e : CommandError)
    (h : (runCandidates st msg chatPfx args [c]).1 = some e) :
    runCandidates st msg chatPfx args (c :: rest) = runCandidates st msg chatPfx args [c] ∧
    (runCandidates st msg chatPfx args (c :: rest)).2.handlers = [] ∧
    (message st msg).1 = none := by
  have hnone := message_first_none st msg
  cases hp : checkPfx chatPfx c with
  | error e₁ => refine ⟨by simp [runCandidates, hp], by simp [runCandidates, hp], hnone⟩
  | ok u =>
    cases hcp : createParameters args c.definition with
    | mk exc ns =>
      cases exc with
      | error e₂ =>
        refine ⟨by simp [runCandidates, hp, hcp], by simp [runCandidates, hp, hcp], hnone⟩
      | ok params =>
        cases hmw : checkMiddleware st.middlewares msg c.definition with
        | mk exc₂ n =>
          cases exc₂ with
          | error e₃ =>
            refine ⟨by simp [runCandidates, hp, hcp, hmw],
              by simp [runCandidates, hp, hcp, hmw], hnone⟩
          | ok b =>
            exfalso
            simp [runCandidates, hp, hcp, hmw] at h

/-- C2 (witness): the amended theorem applied to the concrete
two-candidate registry. -/
theorem candidate_failure_aborts_quietly_witness :
    runCandidates twoCandState twoCandMsg (some "!") [] [twoCandObj₁, twoCandObj₂] =
      runCandidates twoCandState twoCandMsg (some "!") [] [twoCandObj₁] :=
  (candidate_failure_aborts_quietly twoCandState twoCandMsg (some "!") [] twoCandObj₁
    [twoCandObj₂] .middlewareRejected rfl).1

/-- C3: the spec claims the authorization check succeeds iff the
granted level reaches the requirement, so an identity whose only
granted level is strictly below the requirement is never authorized.
The role-store query of the code counts records with
`type <= authentication`, so an identity holding only a MOD-level (1)
role is authorized for an ADMIN-level (2) command: evaluated here, the
highest granted level is 1 < 2, yet the check succeeds (after
consulting the store). -/
theorem authenticate_grants_below_requirement :
    highestGrantedLevel modOnlyCtx = 1 ∧
    (authenticate modOnlyCtx 2).ok = true ∧
    (authenticate modOnlyCtx 2).storeQueried = true := by
  refine ⟨rfl, rfl, rfl⟩

/-- C4: for the template with placeholders a and b, the argument string
`x y` extracts the mapping a to x and b to y, while `x` (too few
tokens) and `x y z` (too many tokens) both fail with
`ParameterMismatch` — the tokens must exactly cover the template. -/
theorem createParameters_exact_cover :
    createParameters ["x", "y"] abDefinition =
      (.ok { array := ["x", "y"], named := some [("a", "x"), ("b", "y")] }, []) ∧
    createParameters ["x"] abDefinition =
      (.error .parameterMismatch, [.paramFormat]) ∧
    createParameters ["x", "y", "z"] abDefinition =
      (.error .parameterMismatch, [.paramFormat]) := by
  refine ⟨rfl, rfl, rfl⟩

/-- C5: an identity equal to the configured superuser passes the
authorization check for every requirement of the closed level set, and
the external role store is never consulted for it. -/
theorem authenticate_superuser_no_lookup (ctx : AuthContext) (authentication : Nat)
    (hsu : ctx.authorId = ctx.superuser) (hle : authentication ≤ 4) :
    (authenticate ctx authentication).ok = true ∧
    (authenticate ctx authentication).storeQueried = false := by
  have h4 : getHighestRole ctx = 4 := by unfold getHighestRole; simp [hsu]
  unfold authenticate
  rw [h4]
  by_cases h0 : authentication = 0
  · simp [h0]
  · simp [h0, hle]

/-- C5 (witness): the superuser context at requirement OWNER (3). -/
theorem authenticate_superuser_no_lookup_witness :
    (authenticate superuserCtx 3).ok = true ∧
    (authenticate superuserCtx 3).storeQueried = false :=
  authenticate_superuser_no_lookup superuserCtx 3 rfl (by decide)

/-- C6: whenever resolution succeeds, the candidate list is exactly the
alias match (when the command word is bound), followed by one candidate
for every registered pattern matching the full raw message, in pattern
registration order. -/
theorem getCommand_candidate_order (st : CommandsState) (chatCommand : String)
    (chatPfx : Option String) (content : String) (cands : List CommandObject)
    (h : (getCommand st chatCommand chatPfx content).1 = .ok cands) :
    cands = aliasCandidates st chatCommand ++ patternCandidates st content := by
  have hcp := checkPatterns_eq st.funcs content st.patterns (aliasCandidates st chatCommand)
  unfold getCommand at h
  by_cases hlen :
      (checkPatterns st.funcs content st.patterns (aliasCandidates st chatCommand)).length = 0
  · simp [hlen] at h
  · simp only [hlen, if_false] at h
    cases h
    rw [hcp]
    rfl

/-- C6 (witness): a message matching one alias and two independent
patterns yields exactly three candidates in that fixed order. -/
theorem getCommand_candidate_order_witness :
    [triObj₁, triObj₂, triObj₃] =
      aliasCandidates triState "ping" ++ patternCandidates triState "!ping" :=
  getCommand_candidate_order triState "ping" (some "!") "!ping"
    [triObj₁, triObj₂, triObj₃] rfl

/-- C7: registering a second alias-based definition under an already
bound alias silently replaces the binding: resolving the alias
afterwards returns the newer registration (fresh token, new
definition), never the older one, whose token differs. -/
theorem defineCommand_last_write_wins (st : CommandsState) (d₁ d₂ : CommandDefinition)
    (s : String) (h₁ : d₁.command.pattern = none) (h₂ : d₂.command.pattern = none)
    (hs₁ : s ∈ d₁.command.names) (hs₂ : s ∈ d₂.command.names) :
    aliasCandidates (defineCommand (defineCommand st d₁) d₂) s =
      [{ definition := d₂, symbol := st.nextSymbol + 1,
         aliases := d₂.command.names, pattern := false }] ∧
    aliasCandidates (defineCommand st d₁) s =
      [{ definition := d₁, symbol := st.nextSymbol,
         aliases := d₁.command.names, pattern := false }] ∧
    st.nextSymbol + 1 ≠ st.nextSymbol := by
  refine ⟨?_, ?_, Nat.succ_ne_self st.nextSymbol⟩
  · simp only [aliasCandidates, defineCommand, h₁, h₂]
    rw [bindAliases_lookup, any_toLower_of_mem hs₂ rfl]
    simp
  · simp only [aliasCandidates, defineCommand, h₁]
    rw [bindAliases_lookup, any_toLower_of_mem hs₁ rfl]
    simp

/-- C7 (witness): two concrete definitions sharing the alias `ping`;
resolution after both registrations yields the newer one. -/
theorem defineCommand_last_write_wins_witness :
    aliasCandidates (defineCommand (defineCommand emptyState pingDefOld) pingDefNew) "ping" =
      [{ definition := pingDefNew, symbol := emptyState.nextSymbol + 1,
         aliases := pingDefNew.command.names, pattern := false }] :=
  (defineCommand_last_write_wins emptyState pingDefOld pingDefNew "ping" rfl rfl
    (by decide) (by decide)).1

/-- C8: round-trip — registering an alias-based command under `s` and
resolving any case variant of `s` (same lower-casing) finds exactly
that registration: alias binding and lookup are case-insensitive. -/
theorem defineCommand_case_insensitive (st : CommandsState) (d : CommandDefinition)
    (s v : String) (hp : d.command.pattern = none) (hs : s ∈ d.command.names)
    (hv : jsToLower v = jsToLower s) :
    aliasCandidates (defineCommand st d) v =
      [{ definition := d, symbol := st.nextSymbol,
         aliases := d.command.names, pattern := false }] := by
  simp only [aliasCandidates, defineCommand, hp]
  rw [bindAliases_lookup, any_toLower_of_mem hs hv]
  simp

/-- C8 (witness): register `Ping`, resolve `PING`. -/
theorem defineCommand_case_insensitive_witness :
    aliasCandidates (defineCommand emptyState pingDefCased) "PING" =
      [{ definition := pingDefCased, symbol := emptyState.nextSymbol,
         aliases := pingDefCased.command.names, pattern := false }] :=
  defineCommand_case_insensitive emptyState pingDefCased "Ping" "PING" rfl
    (by decide) (by decide)

/-- C9: with an empty candidate list, resolution fails with
`UnknownCommand`, and the not-found notice is sent exactly when the
chat prefix equals the configured prefix and the message does not start
with the doubled prefix. -/
theorem getCommand_unknown_notice (st : CommandsState) (chatCommand : String)
    (chatPfx : Option String) (content : String)
    (h : aliasCandidates st chatCommand ++ patternCandidates st content = []) :
    (getCommand st chatCommand chatPfx content).1 = .error .unknownCommand ∧
    ((getCommand st chatCommand chatPfx content).2 = [.commandNotFound] ↔
      (chatPfx = some st.prefixStr ∧
        jsStartsWith (st.prefixStr ++ st.prefixStr) content = false)) := by
  have hcp := checkPatterns_eq st.funcs content st.patterns (aliasCandidates st chatCommand)
  rw [patternCandidates] at h
  unfold getCommand
  rw [hcp, h]
  by_cases hpfx : chatPfx = some st.prefixStr
  · by_cases hsw : jsStartsWith (st.prefixStr ++ st.prefixStr) content = true
    · simp [hpfx, hsw]
    · simp [hpfx, Bool.not_eq_true] at hsw
      simp [hpfx, hsw]
  · simp [hpfx]

/-- C9 (witness): the empty registry, command word `nope`, message
`!nope` with the configured prefix present and not doubled. -/
theorem getCommand_unknown_notice_witness :
    (getCommand emptyState "nope" (some "!") "!nope").1 = .error .unknownCommand :=
  (getCommand_unknown_notice emptyState "nope" (some "!") "!nope" rfl).1

/-- C10: the role-assignment handler resolves true exactly when the
extracted type parameter lower-cases to mod or admin; in particular
with no mentioned roles the persistence step fails, the failure is
reported only by chat notices, and the handler still resolves true. -/
theorem addRoleCommand_true_for_known_types (typeParam : String)
    (mentionedRoles : List String) :
    ((addRoleCommand typeParam mentionedRoles).1 = true ↔
      (jsToLower typeParam = "mod" ∨ jsToLower typeParam = "admin")) ∧
    ((jsToLower typeParam = "mod" ∨ jsToLower typeParam = "admin") → mentionedRoles = [] →
      (addRoleCommand typeParam mentionedRoles).1 = true ∧
      (addRoleCommand typeParam mentionedRoles).2 = [.noRolesSpecified, .roleIssue]) := by
  by_cases hro : jsToLower typeParam = "mod" ∨ jsToLower typeParam = "admin"
  · constructor
    · cases hsr : (setRole mentionedRoles (jsToLower typeParam)).1 <;>
        simp [addRoleCommand, hro, hsr]
    · intro _ hroles
      subst hroles
      simp [addRoleCommand, hro, setRole]
  · simp [addRoleCommand, hro]

/-- C10 (witness): type parameter `MOD` with no mentioned roles. -/
theorem addRoleCommand_true_for_known_types_witness :
    (addRoleCommand "MOD" []).1 = true ∧
    (addRoleCommand "MOD" []).2 = [.noRolesSpecified, .roleIssue] :=
  (addRoleCommand_true_for_known_types "MOD" []).2 (Or.inl (by decide)) rfl

end SimpleDiscord
